import Mathlib

/-!
Verification of the pairwise comparison and scoring core of BiG-SCAPE.

This file gives a shallow embedding, in Lean 4, of the parts of the
repository that the checked claims are about:

* `get_batch_size` (big_scape/comparison/legacy_workflow_alt.py)
* `get_aligned_string_dist` (src/distances/dss.py)
* `get_weight_category` (big_scape/comparison/binning.py)
* the composite distance computation of `calculate_scores_pair`
  (big_scape/comparison/legacy_workflow_alt.py) and
  `calculate_scores_multiprocess` (src/comparison/legacy_workflow.py)
* the pair generators of big_scape/comparison/binning.py
  (`RecordPairGenerator`, `QueryToRefRecordPairGenerator`,
  `RefToRefRecordPairGenerator`, `ConnectedComponentPairGenerator`,
  `MissingRecordPairGenerator`)
* the zero-Jaccard early exit of `calculate_scores_pair`
* `find_domain_lcs_region` (big_scape/comparison/lcs.py), including a
  faithful model of Python difflib's `SequenceMatcher.find_longest_match`
  and `get_matching_blocks` on which it relies.

Machine floats of the source are modelled as exact rationals; Python
dictionaries keyed by indices are modelled as list lookups; database
queries are modelled as filters over an explicit list of stored rows.
-/

namespace BigScape

/-- Python truthiness of a string literal: non-empty strings are truthy.
Used to embed the boolean expressions of `get_weight_category`, which
apply `and`/`or` to string literals. -/
def pyStrTruthy (s : String) : Bool := !(s == "")

/-- `|a - b|` on naturals. -/
def natAbsDiff (a b : Nat) : Nat := max a b - min a b

/-- Python `round` (banker's rounding, i.e. round-half-to-even) applied to a
non-negative half-integer given as its double `d2` (so the value rounded is
`d2 / 2`).  Every `distance` rounded in `find_domain_lcs_region` is of this
form (`middle` is a half-integer, cds indices are integers). -/
def pyRoundHalf (d2 : Nat) : Nat :=
  if d2 % 2 = 0 then d2 / 2
  else
    let m := d2 / 2
    if m % 2 = 0 then m else m + 1

/-! ## Batch sizing (legacy_workflow_alt.get_batch_size) -/

/-- Embedding of `get_batch_size(cores, desired_batch_size, num_items)`.
`ceil(num_items / cores)` of the source is exact ceiling division. -/
def get_batch_size (cores desired_batch_size num_items : Nat) : Nat :=
  if num_items < cores then num_items
  else if num_items < desired_batch_size then num_items
  else if cores * desired_batch_size > num_items then (num_items + cores - 1) / cores
  else desired_batch_size

/-! ## Aligned string distance (src/distances/dss.get_aligned_string_dist) -/

/-- Embedding of `get_aligned_string_dist(string_a, string_b)`.
Raises (models) a ValueError exactly when the lengths differ; otherwise
counts, over positions, `gaps` (equal characters that are the gap
character `-`) and `matches` (equal characters that are not the gap
character) and returns `1 - matches / (length - gaps)` as an exact
rational. -/
def get_aligned_string_dist (string_a string_b : List Char) : Except String ℚ :=
  if string_a.length ≠ string_b.length then
    .error "String A and String B length difference in get_aligned_string_dist"
  else
    let pos := string_a.zip string_b
    let gaps := pos.countP (fun p => decide (p.1 = p.2 ∧ p.1 = '-'))
    let match_count := pos.countP (fun p => decide (p.1 = p.2 ∧ p.1 ≠ '-'))
    .ok (1 - (match_count : ℚ) / ((string_a.length : ℚ) - (gaps : ℚ)))

/-- Whether an `Except` result is an error. -/
def exceptIsError : Except String ℚ → Bool
  | .error _ => true
  | .ok _ => false

/-! ## Legacy weights and the composite distance
(binning.LEGACY_WEIGHTS and the final scoring block of
`calculate_scores_pair` / `calculate_scores_multiprocess`) -/

/-- Embedding of the `LEGACY_WEIGHTS` table of binning.py.  Entries are
`(label, (JC weight, AI weight, DSS weight, anchor boost))`. -/
def LEGACY_WEIGHTS : List (String × (ℚ × ℚ × ℚ × ℚ)) :=
  [("PKSI", (22/100, 2/100, 76/100, 1)),
   ("PKSother", (0, 68/100, 32/100, 4)),
   ("NRPS", (0, 0, 1, 4)),
   ("RiPP", (28/100, 1/100, 71/100, 1)),
   ("saccharide", (0, 1, 0, 1)),
   ("terpene", (20/100, 5/100, 75/100, 2)),
   ("PKS-NRP_Hybrids", (0, 22/100, 78/100, 1)),
   ("other", (1/100, 2/100, 97/100, 4)),
   ("mix", (20/100, 5/100, 75/100, 2))]

/-- The weight lookup of `calculate_scores_pair`: unknown labels fall back
to the `"mix"` profile. -/
def bin_weights (weights_label : String) : ℚ × ℚ × ℚ × ℚ :=
  match (LEGACY_WEIGHTS.lookup weights_label) with
  | some w => w
  | none => (20/100, 5/100, 75/100, 2)

/-- The composite distance computed by the worker for a scored pair
(lines `similarity = jaccard * jc_weight + adjacency * ai_weight +
dss * dss_weight; distance = 1 - similarity`), given the three computed
sub-scores. -/
def calculate_scores_distance (weights_label : String) (jaccard adjacency dss : ℚ) : ℚ :=
  let w := bin_weights weights_label
  let similarity := jaccard * w.1 + adjacency * w.2.1 + dss * w.2.2.1
  1 - similarity

/-- The distance formula asserted by the specification (claim C1),
written from the spec's words: `1 − (w_JC·JC + w_AI·AI + w_DSS·(1 − DSS))`,
to be compared against `calculate_scores_distance`. -/
def spec_claimed_distance (weights_label : String) (jaccard adjacency dss : ℚ) : ℚ :=
  let w := bin_weights weights_label
  1 - (w.1 * jaccard + w.2.1 * adjacency + w.2.2.1 * (1 - dss))

/-! ## Weight category (binning.get_weight_category) -/

/-- A protocluster as `get_weight_category` consumes it: a product label
and an optional antiSMASH category. -/
structure ProtoInfo where
  product : String
  category : Option String
deriving DecidableEq, Repr

/-- The record variants inspected by `get_weight_category` /
`get_record_category`.  A `region` holds its candidate clusters, each an
optional object holding optional protoclusters, mirroring the
`cand_clusters` / `proto_clusters` dictionaries of the source. -/
inductive WRecord where
  | protoCluster (info : ProtoInfo)
  | protoCore (info : ProtoInfo)
  | region (cand_clusters : List (Option (List (Option ProtoInfo))))
deriving DecidableEq, Repr

/-- The category collected from one protocluster: the product when it is
`"T1PKS"`, the antiSMASH category otherwise (`get_weight_category`). -/
def protoWeightCategory (info : ProtoInfo) : String :=
  if info.product = "T1PKS" then info.product else info.category.getD ""

/-- The `categories` list accumulated by `get_weight_category` before it is
mapped to a legacy weight class.  Duplicate categories are skipped, as in
the source. -/
def collect_weight_categories : WRecord → List String
  | .protoCluster info | .protoCore info =>
      match info.category with
      | none => []
      | some _ => [protoWeightCategory info]
  | .region ccs =>
      ccs.foldl
        (fun acc cc =>
          match cc with
          | none => acc
          | some pcs =>
              pcs.foldl
                (fun acc pc =>
                  match pc with
                  | none => acc
                  | some info =>
                      match info.category with
                      | none => acc
                      | some _ =>
                          let pc_category := protoWeightCategory info
                          if pc_category ∈ acc then acc else acc ++ [pc_category])
                acc)
        []

/-- Embedding of the classification tail of `get_weight_category`.  The
source evaluates, with Python semantics:
`if "NRPS" and ("PKS" or "T1PKS") in categories` — `"PKS" or "T1PKS"`
short-circuits to `"PKS"`, and `"NRPS" and x` to `x`, so the condition is
`"PKS" in categories`; and
`if "PKS" or ("PKS" and "T1PKS") in categories` — `"PKS" and "T1PKS"`
short-circuits to `"T1PKS"`, and `"PKS" or x` to the truthy `"PKS"`, so
the condition is always true.  Both conditions are embedded with their
short-circuit structure made explicit via `pyStrTruthy`. -/
def get_weight_category (record : WRecord) : String :=
  let categories := collect_weight_categories record
  if categories.length = 0 then "other"
  else if categories.length = 1 then categories.headD ""
  else
    -- first if: `"NRPS" and (("PKS" or "T1PKS") in categories)`
    let cond_hybrid := pyStrTruthy "NRPS" && decide ("PKS" ∈ categories)
    -- the assignment it guards is overwritten by the following if/else
    let _dead := if cond_hybrid then some "PKS-NRP_Hybrids" else (none : Option String)
    -- second if: `"PKS" or (("PKS" and "T1PKS") in categories)`
    let cond_pks := pyStrTruthy "PKS" || decide ("T1PKS" ∈ categories)
    if cond_pks then "PKSother" else "other"

end BigScape

namespace BigScape

/-! ## Theorems for claims C7, C9, C10, C1 -/

/-- **C7.** Counterexample: with the default desired batch size 10,000,
`get_batch_size(cores=2, 10000, num_pairs=10)` returns 10, not
`min(10000, ceil(10/2)) = 5` as the claim states for the case
`num_pairs ≥ cores`. -/
theorem C7_counterexample :
    get_batch_size 2 10000 10 = 10 ∧
    min 10000 ((10 + 2 - 1) / 2) = 5 ∧ (10 : Nat) ≠ 5 := by
  refine ⟨?_, by norm_num, by norm_num⟩
  rfl

/-- **C7 (amended).** For cores ≥ 1 and num_pairs ≥ 1 with the default
desired batch size 10,000: `get_batch_size` returns `num_pairs` whenever
`num_pairs < cores` or `num_pairs < 10000`, and
`min(10000, ceil(num_pairs/cores))` otherwise; the result is always ≥ 1. -/
theorem C7_get_batch_size_amended (cores num_pairs : Nat)
    (hc : 1 ≤ cores) (hn : 1 ≤ num_pairs) :
    get_batch_size cores 10000 num_pairs =
      (if num_pairs < cores ∨ num_pairs < 10000 then num_pairs
       else min 10000 ((num_pairs + cores - 1) / cores)) ∧
    1 ≤ get_batch_size cores 10000 num_pairs := by
  have hcpos : 0 < cores := hc
  have hq_pos : 1 ≤ (num_pairs + cores - 1) / cores := by
    rw [Nat.le_div_iff_mul_le hcpos]; omega
  unfold get_batch_size
  by_cases h1 : num_pairs < cores
  · simp only [if_pos h1, if_pos (Or.inl h1)]; exact ⟨trivial, hn⟩
  by_cases h2 : num_pairs < 10000
  · simp only [if_neg h1, if_pos h2, if_pos (Or.inr h2)]; exact ⟨trivial, hn⟩
  simp only [if_neg h1, if_neg h2,
    if_neg (by omega : ¬(num_pairs < cores ∨ num_pairs < 10000))]
  by_cases h3 : cores * 10000 > num_pairs
  · have hle : (num_pairs + cores - 1) / cores ≤ 10000 := by
      have hlt : (num_pairs + cores - 1) / cores < 10001 := by
        rw [Nat.div_lt_iff_lt_mul hcpos]; omega
      omega
    simp only [if_pos h3]
    exact ⟨(Nat.min_eq_right hle).symm, hq_pos⟩
  · have hge : 10000 ≤ (num_pairs + cores - 1) / cores := by
      rw [Nat.le_div_iff_mul_le hcpos]
      push_neg at h3
      omega
    simp only [if_neg h3]
    exact ⟨(Nat.min_eq_left hge).symm, by norm_num⟩

/-- **C7 (witness).** The amended theorem instantiated at cores = 3,
num_pairs = 70000: the batch size is ceil(70000/3) = 23334. -/
theorem C7_witness :
    get_batch_size 3 10000 70000 =
      (if 70000 < 3 ∨ 70000 < 10000 then 70000
       else min 10000 ((70000 + 3 - 1) / 3)) ∧
    1 ≤ get_batch_size 3 10000 70000 :=
  C7_get_batch_size_amended 3 70000 (by norm_num) (by norm_num)

/-- Unknown weight labels fall back to the `"mix"` weights. -/
theorem bin_weights_of_not_mem (label : String)
    (h : label ∉ LEGACY_WEIGHTS.map Prod.fst) :
    bin_weights label = (20/100, 5/100, 75/100, 2) := by
  simp only [LEGACY_WEIGHTS, List.map, List.mem_cons, List.not_mem_nil, or_false,
    not_or] at h
  obtain ⟨h1, h2, h3, h4, h5, h6, h7, h8, h9⟩ := h
  have e1 : (label == "PKSI") = false := beq_eq_false_iff_ne.mpr h1
  have e2 : (label == "PKSother") = false := beq_eq_false_iff_ne.mpr h2
  have e3 : (label == "NRPS") = false := beq_eq_false_iff_ne.mpr h3
  have e4 : (label == "RiPP") = false := beq_eq_false_iff_ne.mpr h4
  have e5 : (label == "saccharide") = false := beq_eq_false_iff_ne.mpr h5
  have e6 : (label == "terpene") = false := beq_eq_false_iff_ne.mpr h6
  have e7 : (label == "PKS-NRP_Hybrids") = false := beq_eq_false_iff_ne.mpr h7
  have e8 : (label == "other") = false := beq_eq_false_iff_ne.mpr h8
  have e9 : (label == "mix") = false := beq_eq_false_iff_ne.mpr h9
  simp [bin_weights, List.lookup, LEGACY_WEIGHTS, e1, e2, e3, e4, e5, e6, e7, e8, e9]

/-- **C1.** Counterexample: for the `"NRPS"` weight profile
`(w_JC, w_AI, w_DSS) = (0, 0, 1)` and computed sub-scores
`JC = AI = 1, DSS = 0`, the worker emits distance
`1 − (0·1 + 0·1 + 1·0) = 1`, while the claim's formula
`1 − (0·1 + 0·1 + 1·(1−0))` gives 0 — a difference of 1, far above 1e−9. -/
theorem C1_counterexample :
    |calculate_scores_distance "NRPS" 1 1 0 -
      spec_claimed_distance "NRPS" 1 1 0| > 1/1000000000 := by
  have h : bin_weights "NRPS" = (0, 0, 1, 4) := by rfl
  norm_num [calculate_scores_distance, spec_claimed_distance, h]

/-- **C1 (amended).** For every scored pair, the distance emitted by the
worker equals `1 − (w_JC·JC + w_AI·AI + w_DSS·DSS)` exactly, where
JC, AI, DSS are the computed sub-scores (DSS multiplied directly, not
`1 − DSS`), with the weight rows of `LEGACY_WEIGHTS`, and unknown weight
labels falling back to the `"mix"` row. -/
theorem C1_distance_amended (jc ai dss : ℚ) :
    calculate_scores_distance "PKSI" jc ai dss
        = 1 - ((22/100)*jc + (2/100)*ai + (76/100)*dss)
  ∧ calculate_scores_distance "PKSother" jc ai dss
        = 1 - ((68/100)*ai + (32/100)*dss)
  ∧ calculate_scores_distance "NRPS" jc ai dss = 1 - dss
  ∧ calculate_scores_distance "RiPP" jc ai dss
        = 1 - ((28/100)*jc + (1/100)*ai + (71/100)*dss)
  ∧ calculate_scores_distance "saccharide" jc ai dss = 1 - ai
  ∧ calculate_scores_distance "terpene" jc ai dss
        = 1 - ((20/100)*jc + (5/100)*ai + (75/100)*dss)
  ∧ calculate_scores_distance "PKS-NRP_Hybrids" jc ai dss
        = 1 - ((22/100)*ai + (78/100)*dss)
  ∧ calculate_scores_distance "other" jc ai dss
        = 1 - ((1/100)*jc + (2/100)*ai + (97/100)*dss)
  ∧ calculate_scores_distance "mix" jc ai dss
        = 1 - ((20/100)*jc + (5/100)*ai + (75/100)*dss)
  ∧ (∀ label, label ∉ LEGACY_WEIGHTS.map Prod.fst →
      calculate_scores_distance label jc ai dss
        = 1 - ((20/100)*jc + (5/100)*ai + (75/100)*dss)) := by
  refine ⟨?_, ?_, ?_, ?_, ?_, ?_, ?_, ?_, ?_, ?_⟩
  case _ => show (1:ℚ) - (jc * (22/100) + ai * (2/100) + dss * (76/100)) = _; ring
  case _ => show (1:ℚ) - (jc * 0 + ai * (68/100) + dss * (32/100)) = _; ring
  case _ => show (1:ℚ) - (jc * 0 + ai * 0 + dss * 1) = _; ring
  case _ => show (1:ℚ) - (jc * (28/100) + ai * (1/100) + dss * (71/100)) = _; ring
  case _ => show (1:ℚ) - (jc * 0 + ai * 1 + dss * 0) = _; ring
  case _ => show (1:ℚ) - (jc * (20/100) + ai * (5/100) + dss * (75/100)) = _; ring
  case _ => show (1:ℚ) - (jc * 0 + ai * (22/100) + dss * (78/100)) = _; ring
  case _ => show (1:ℚ) - (jc * (1/100) + ai * (2/100) + dss * (97/100)) = _; ring
  case _ => show (1:ℚ) - (jc * (20/100) + ai * (5/100) + dss * (75/100)) = _; ring
  case _ =>
    intro label hl
    unfold calculate_scores_distance
    rw [bin_weights_of_not_mem label hl]
    ring

/-- **C1 (witness).** The amended theorem instantiated at sub-scores
`(JC, AI, DSS) = (1/2, 1/4, 1/8)`, including the fallback at the unknown
label `"not_a_class"`. -/
theorem C1_witness :
    calculate_scores_distance "PKSI" (1/2) (1/4) (1/8)
        = 1 - ((22/100)*(1/2) + (2/100)*(1/4) + (76/100)*(1/8))
  ∧ calculate_scores_distance "not_a_class" (1/2) (1/4) (1/8)
        = 1 - ((20/100)*(1/2) + (5/100)*(1/4) + (75/100)*(1/8)) :=
  ⟨(C1_distance_amended (1/2) (1/4) (1/8)).1,
   (C1_distance_amended (1/2) (1/4) (1/8)).2.2.2.2.2.2.2.2.2 "not_a_class" (by decide)⟩

/-- Counting a conjunction with a condition and with its negation splits a
`countP` of the base predicate. -/
theorem countP_and_split {α : Type} (l : List α) (e c : α → Bool) :
    l.countP (fun x => e x && c x) + l.countP (fun x => e x && !(c x)) = l.countP e := by
  induction l with
  | nil => simp
  | cons x xs ih =>
      by_cases he : e x <;> by_cases hc : c x <;>
        simp [List.countP_cons, he, hc] <;> omega

/-- The number of positions where both strings carry the gap character,
as the specification counts gaps. -/
def spec_gap_count (string_a string_b : List Char) : Nat :=
  (string_a.zip string_b).countP (fun p => decide (p.1 = '-' ∧ p.2 = '-'))

/-- The number of positions with equal, non-gap characters, as the
specification counts matches. -/
def spec_match_count (string_a string_b : List Char) : Nat :=
  (string_a.zip string_b).countP (fun p => decide (p.1 = p.2 ∧ p.1 ≠ '-'))

/-- **C9.** `get_aligned_string_dist` errors (raises ValueError) exactly
when the lengths differ; for equal-length strings with at least one
position that is not a gap in both, it returns
`1 − matches/(length − gaps)` with matches and gaps counted as the
specification states, the divisor is positive, and the result lies in
[0, 1]. -/
theorem C9_get_aligned_string_dist (string_a string_b : List Char) :
    (exceptIsError (get_aligned_string_dist string_a string_b) = true ↔
        string_a.length ≠ string_b.length)
  ∧ (string_a.length = string_b.length →
      (∃ p ∈ string_a.zip string_b, ¬(p.1 = '-' ∧ p.2 = '-')) →
      get_aligned_string_dist string_a string_b =
        .ok (1 - (spec_match_count string_a string_b : ℚ) /
              ((string_a.length : ℚ) - (spec_gap_count string_a string_b : ℚ)))
      ∧ 0 < (string_a.length : ℚ) - (spec_gap_count string_a string_b : ℚ)
      ∧ 0 ≤ 1 - (spec_match_count string_a string_b : ℚ) /
              ((string_a.length : ℚ) - (spec_gap_count string_a string_b : ℚ))
      ∧ 1 - (spec_match_count string_a string_b : ℚ) /
              ((string_a.length : ℚ) - (spec_gap_count string_a string_b : ℚ)) ≤ 1) := by
  constructor
  · by_cases h : string_a.length = string_b.length <;>
      simp [get_aligned_string_dist, exceptIsError, h]
  · intro hlen hpos
    -- the gap count of the source (equal characters that are a gap) agrees
    -- with the gap count of the specification (both characters are gaps)
    have hgap : ((string_a.zip string_b).countP (fun p => decide (p.1 = p.2 ∧ p.1 = '-')))
        = spec_gap_count string_a string_b := by
      unfold spec_gap_count
      apply List.countP_congr
      intro p _
      by_cases h1 : p.1 = p.2
      · rw [h1]
        by_cases h2 : p.2 = '-' <;> simp [h2]
      · have hno : ¬(p.1 = '-' ∧ p.2 = '-') := fun hc => h1 (hc.1.trans hc.2.symm)
        simp [h1, hno]
    have hziplen : (string_a.zip string_b).length = string_a.length := by
      rw [List.length_zip, hlen, Nat.min_self]
    -- the gap count is strictly below the length
    have hgap_lt : spec_gap_count string_a string_b < string_a.length := by
      obtain ⟨p, hp, hpn⟩ := hpos
      unfold spec_gap_count
      rw [← hziplen]
      by_contra hcon
      push_neg at hcon
      have hall := List.countP_eq_length.mp
        (Nat.le_antisymm (List.countP_le_length _) hcon)
      have hp2 := hall p hp
      simp only [decide_eq_true_eq] at hp2
      exact hpn hp2
    -- matches + gaps (source counts) together count the equal positions
    have hsplit := countP_and_split (string_a.zip string_b)
      (fun p => decide (p.1 = p.2)) (fun p => decide (p.1 = '-'))
    have hm_eq : (string_a.zip string_b).countP
        (fun p => decide (p.1 = p.2) && !(decide (p.1 = '-')))
        = spec_match_count string_a string_b := by
      unfold spec_match_count
      apply List.countP_congr
      intro p _
      by_cases h1 : p.1 = p.2 <;> by_cases h2 : p.1 = '-' <;> simp [h1, h2]
    have hg_eq : (string_a.zip string_b).countP
        (fun p => decide (p.1 = p.2) && decide (p.1 = '-'))
        = spec_gap_count string_a string_b := by
      unfold spec_gap_count
      apply List.countP_congr
      intro p _
      by_cases h1 : p.1 = p.2
      · rw [h1]
        by_cases h2 : p.2 = '-' <;> simp [h2]
      · have hno : ¬(p.1 = '-' ∧ p.2 = '-') := fun hc => h1 (hc.1.trans hc.2.symm)
        simp [h1, hno]
    have hsum : spec_gap_count string_a string_b + spec_match_count string_a string_b
        ≤ string_a.length := by
      rw [← hziplen, ← hm_eq, ← hg_eq]
      calc _ = (string_a.zip string_b).countP (fun p => decide (p.1 = p.2)) := hsplit
        _ ≤ _ := List.countP_le_length _
    have hgapQ : (spec_gap_count string_a string_b : ℚ) < (string_a.length : ℚ) := by
      exact_mod_cast hgap_lt
    have hdiv_pos : 0 < (string_a.length : ℚ) - (spec_gap_count string_a string_b : ℚ) := by
      linarith
    have hsumQ : (spec_match_count string_a string_b : ℚ)
        ≤ (string_a.length : ℚ) - (spec_gap_count string_a string_b : ℚ) := by
      have hc : ((spec_gap_count string_a string_b + spec_match_count string_a string_b : Nat) : ℚ)
          ≤ (string_a.length : ℚ) := by exact_mod_cast hsum
      push_cast at hc
      linarith
    have hfrac_nonneg : 0 ≤ (spec_match_count string_a string_b : ℚ) /
        ((string_a.length : ℚ) - (spec_gap_count string_a string_b : ℚ)) :=
      div_nonneg (by positivity) (le_of_lt hdiv_pos)
    have hfrac_le_one : (spec_match_count string_a string_b : ℚ) /
        ((string_a.length : ℚ) - (spec_gap_count string_a string_b : ℚ)) ≤ 1 :=
      (div_le_one hdiv_pos).mpr hsumQ
    refine ⟨?_, hdiv_pos, by linarith, by linarith⟩
    unfold get_aligned_string_dist
    rw [if_neg (by omega : ¬ string_a.length ≠ string_b.length)]
    show Except.ok (1 -
        (((string_a.zip string_b).countP (fun p => decide (p.1 = p.2 ∧ p.1 ≠ '-'))) : ℚ) /
        ((string_a.length : ℚ) -
          (((string_a.zip string_b).countP (fun p => decide (p.1 = p.2 ∧ p.1 = '-'))) : ℚ))) = _
    rw [hgap]
    rfl

/-- Example aligned string `"A-B"` used to instantiate C9. -/
def c9_string_a : List Char := ['A', '-', 'B']

/-- Example aligned string `"A-C"` used to instantiate C9. -/
def c9_string_b : List Char := ['A', '-', 'C']

/-- **C9 (witness).** The theorem instantiated at the aligned strings
`"A-B"` and `"A-C"`: one gap position, one match position, distance 1/2. -/
theorem C9_witness :
    get_aligned_string_dist c9_string_a c9_string_b =
        .ok (1 - (spec_match_count c9_string_a c9_string_b : ℚ) /
              ((c9_string_a.length : ℚ) - (spec_gap_count c9_string_a c9_string_b : ℚ)))
      ∧ 0 < (c9_string_a.length : ℚ) - (spec_gap_count c9_string_a c9_string_b : ℚ)
      ∧ 0 ≤ 1 - (spec_match_count c9_string_a c9_string_b : ℚ) /
              ((c9_string_a.length : ℚ) - (spec_gap_count c9_string_a c9_string_b : ℚ))
      ∧ 1 - (spec_match_count c9_string_a c9_string_b : ℚ) /
              ((c9_string_a.length : ℚ) - (spec_gap_count c9_string_a c9_string_b : ℚ)) ≤ 1 :=
  (C9_get_aligned_string_dist c9_string_a c9_string_b).2 (by decide)
    ⟨('A', 'A'), by decide, by decide⟩

/-- **C10.** For every record whose collected category list has more than
one distinct entry, `get_weight_category` returns `"PKSother"`; the
`"PKS-NRP_Hybrids"` and `"other"` outcomes are unreachable for such
records. -/
theorem C10_get_weight_category_multi (record : WRecord)
    (h : 1 < (collect_weight_categories record).length) :
    get_weight_category record = "PKSother" ∧
    get_weight_category record ≠ "PKS-NRP_Hybrids" ∧
    get_weight_category record ≠ "other" := by
  have h0 : ¬ (collect_weight_categories record).length = 0 := by omega
  have h1 : ¬ (collect_weight_categories record).length = 1 := by omega
  have heq : get_weight_category record = "PKSother" := by
    unfold get_weight_category
    rw [if_neg h0, if_neg h1]
    simp [pyStrTruthy]
  exact ⟨heq, by rw [heq]; decide, by rw [heq]; decide⟩

/-- Example multi-category record used to instantiate C10: a region whose
protoclusters carry the distinct categories `"NRPS"` and `"terpene"`. -/
def c10_record : WRecord :=
  .region [some [some ⟨"nrps", some "NRPS"⟩, some ⟨"terpene", some "terpene"⟩]]

/-- **C10 (witness).** The theorem instantiated at a concrete region with
two distinct collected categories. -/
theorem C10_witness :
    get_weight_category c10_record = "PKSother" ∧
    get_weight_category c10_record ≠ "PKS-NRP_Hybrids" ∧
    get_weight_category c10_record ≠ "other" :=
  C10_get_weight_category_multi c10_record (by decide)

/-! ## Pair generators (binning.py) -/

/-- A BGC record as the pair generators see it: the persistent database id
(`_db_id`, always present for records in a bin), the identity of the
parent GBK, and whether the parent GBK's source type is QUERY.  Python
record equality (`record_a == record_b` in
`QueryToRefRecordPairGenerator.generate_pairs`) is modelled as structural
equality; distinct records in a bin have distinct database ids. -/
structure BGCRecord where
  db_id : Nat
  gbk_id : Nat
  source_query : Bool
deriving DecidableEq, Repr

/-- `itertools.combinations(l, 2)` in iteration order. -/
def combinations2 {α : Type} : List α → List (α × α)
  | [] => []
  | x :: xs => xs.map (fun y => (x, y)) ++ combinations2 xs

/-- The record pairs iterated by `RecordPairGenerator.generate_pairs`
after the same-parent-GBK skip (`legacy_sorting=False` path). -/
def rpg_pair_candidates (source_records : List BGCRecord) : List (BGCRecord × BGCRecord) :=
  (combinations2 source_records).filter (fun ab => decide (ab.1.gbk_id ≠ ab.2.gbk_id))

/-- `RecordPairGenerator.generate_pairs`: the yielded `(id_a, id_b)`
pairs. -/
def rpg_generate_pairs (source_records : List BGCRecord) : List (Nat × Nat) :=
  (rpg_pair_candidates source_records).map (fun ab => (ab.1.db_id, ab.2.db_id))

/-- `RecordPairGenerator.num_pairs`: `n*(n-1)/2` with no adjustment for
records sharing a parent GBK. -/
def rpg_num_pairs (source_records : List BGCRecord) : Nat :=
  if source_records.length < 2 then 0
  else source_records.length * (source_records.length - 1) / 2

/-- The query records of `QueryToRefRecordPairGenerator` (parent GBK of
source type QUERY). -/
def qtr_query_records (records : List BGCRecord) : List BGCRecord :=
  records.filter (·.source_query)

/-- The reference records of `QueryToRefRecordPairGenerator`. -/
def qtr_reference_records (records : List BGCRecord) : List BGCRecord :=
  records.filter (fun r => !r.source_query)

/-- The loop of `QueryToRefRecordPairGenerator.generate_pairs`: for the
query record at index `qi`, iterate over
`reference_records + query_records[qi+1:]`, skipping only
`record_a == record_b` (there is no same-parent-GBK check here). -/
def qtr_pairs_loop (reference : List BGCRecord) :
    List BGCRecord → List (BGCRecord × BGCRecord)
  | [] => []
  | ra :: rest =>
      ((reference ++ rest).filter (fun rb => decide (ra ≠ rb))).map (fun rb => (ra, rb))
        ++ qtr_pairs_loop reference rest

/-- `QueryToRefRecordPairGenerator.generate_pairs`: the yielded
`(id_a, id_b)` pairs. -/
def qtr_generate_pairs (records : List BGCRecord) : List (Nat × Nat) :=
  (qtr_pairs_loop (qtr_reference_records records) (qtr_query_records records)).map
    (fun ab => (ab.1.db_id, ab.2.db_id))

/-- A row of the `distance` table as the generators query it. -/
structure DistanceRow where
  record_a_id : Nat
  record_b_id : Nat
  distance : ℚ
  edge_param_id : Nat
deriving DecidableEq, Repr

/-- Whether a record id participates in a stored edge with
`distance < 1.0` under the given `edge_param_id` (the subqueries of
`RefToRefRecordPairGenerator.get_connected_reference_nodes`). -/
def hasCloseEdge (store : List DistanceRow) (param rid : Nat) : Bool :=
  store.any (fun row => decide (row.distance < 1) && (row.edge_param_id == param)
      && ((row.record_a_id == rid) || (row.record_b_id == rid)))

/-- `get_connected_reference_nodes`: reference records of the bin with a
close stored edge, excluding records already done. -/
def rtr_connected_nodes (store : List DistanceRow) (param : Nat)
    (done_ids : List Nat) (reference_records : List BGCRecord) : List BGCRecord :=
  reference_records.filter
    (fun r => hasCloseEdge store param r.db_id && decide (r.db_id ∉ done_ids))

/-- `get_singleton_reference_nodes`: reference records of the bin with no
close stored edge. -/
def rtr_singleton_nodes (store : List DistanceRow) (param : Nat)
    (reference_records : List BGCRecord) : List BGCRecord :=
  reference_records.filter (fun r => !hasCloseEdge store param r.db_id)

/-- The record pairs iterated by
`RefToRefRecordPairGenerator.generate_pairs`: connected × singleton with
the same-parent-GBK skip. -/
def rtr_pair_candidates (store : List DistanceRow) (param : Nat) (done_ids : List Nat)
    (reference_records : List BGCRecord) : List (BGCRecord × BGCRecord) :=
  let connected := rtr_connected_nodes store param done_ids reference_records
  let singleton := rtr_singleton_nodes store param reference_records
  (connected.flatMap (fun ra => singleton.map (fun rb => (ra, rb)))).filter
    (fun ab => decide (ab.1.gbk_id ≠ ab.2.gbk_id))

/-- The record pairs iterated by
`ConnectedComponentPairGenerator.generate_pairs`: the component's edges in
order, each looked up in `record_id_to_obj` (modelled by `find?` over the
added records), with the same-parent-GBK skip.  Only the two record ids of
each component edge matter here. -/
def cc_pair_candidates (component : List (Nat × Nat)) (records : List BGCRecord) :
    List (BGCRecord × BGCRecord) :=
  component.filterMap (fun e =>
    match records.find? (fun r => r.db_id == e.1),
          records.find? (fun r => r.db_id == e.2) with
    | some ra, some rb => if ra.gbk_id = rb.gbk_id then none else some (ra, rb)
    | _, _ => none)

/-! ## Missing-record wrapper (binning.MissingRecordPairGenerator) -/

/-- The underlying generator as `MissingRecordPairGenerator` sees it: the
record ids of its bin, the bin's `edge_param_id`, the pairs its
`generate_pairs` yields, and its `num_pairs` value. -/
structure BaseGenerator where
  record_ids : List Nat
  edge_param_id : Nat
  pairs : List (Nat × Nat)
  numPairs : Nat

/-- The row filter of both queries of `MissingRecordPairGenerator`: both
endpoints among the bin's record ids, and this bin's `edge_param_id`. -/
def missing_row_filter (g : BaseGenerator) (row : DistanceRow) : Bool :=
  decide (row.record_a_id ∈ g.record_ids) && decide (row.record_b_id ∈ g.record_ids)
    && (row.edge_param_id == g.edge_param_id)

/-- The `existing_distances` set of
`MissingRecordPairGenerator.generate_pairs`. -/
def existing_distances (store : List DistanceRow) (g : BaseGenerator) : List (Nat × Nat) :=
  (store.filter (missing_row_filter g)).map (fun row => (row.record_a_id, row.record_b_id))

/-- `MissingRecordPairGenerator.generate_pairs`: underlying pairs absent
from `existing_distances` in both orientations. -/
def missing_generate_pairs (store : List DistanceRow) (g : BaseGenerator) : List (Nat × Nat) :=
  g.pairs.filter (fun p =>
    decide (p ∉ existing_distances store g) && decide ((p.2, p.1) ∉ existing_distances store g))

/-- `MissingRecordPairGenerator.num_pairs`: the underlying count minus the
number of stored rows matching the bin. -/
def missing_num_pairs (store : List DistanceRow) (g : BaseGenerator) : Nat :=
  g.numPairs - (store.filter (missing_row_filter g)).length

/-- The pair `p` is stored under the given `edge_param_id` in either
orientation (the set-difference predicate of the specification). -/
def storedEitherOrientation (store : List DistanceRow) (param : Nat) (p : Nat × Nat) : Prop :=
  ∃ row ∈ store, row.edge_param_id = param ∧
    ((row.record_a_id, row.record_b_id) = p ∨ (row.record_a_id, row.record_b_id) = (p.2, p.1))

instance (store : List DistanceRow) (param : Nat) (p : Nat × Nat) :
    Decidable (storedEitherOrientation store param p) := by
  unfold storedEitherOrientation
  infer_instance

/-- The number of stored rows under the bin's `edge_param_id` whose
endpoints are both among the bin's records. -/
def stored_pair_count (store : List DistanceRow) (g : BaseGenerator) : Nat :=
  store.countP (missing_row_filter g)

/-- The four records of scenario S5: four all-vs-all records over three
GBKs, records 0 and 1 sharing GBK 0. -/
def c2_records : List BGCRecord :=
  [⟨0, 0, false⟩, ⟨1, 0, false⟩, ⟨2, 1, false⟩, ⟨3, 2, false⟩]

/-- **C2.** Evaluation at the failing input: for the S5 bin of four
records over three GBKs with two records sharing a GBK, the all-vs-all
generator yields 5 pairs, but `num_pairs()` returns C(4,2) = 6, not 5:
`num_pairs` does not subtract the same-GBK pairs that `generate_pairs`
skips, contradicting its own docstring ("the number of pairs expected to
be generated by the pairs Generator") and the claim. -/
theorem C2_code_bug :
    (rpg_generate_pairs c2_records).length = 5 ∧
    rpg_num_pairs c2_records = 6 ∧
    (rpg_generate_pairs c2_records).length ≠ rpg_num_pairs c2_records := by
  decide

/-- Records instantiating C3's counterexample: two query records sharing
parent GBK 0 and one reference record. -/
def c3_records : List BGCRecord := [⟨0, 0, true⟩, ⟨1, 0, true⟩, ⟨2, 1, false⟩]

/-- **C3.** Counterexample: the query↔ref generator only skips
`record_a == record_b`, so for two distinct query records sharing parent
GBK 0 it emits their pair: a pair of records with the same parent GBK is
yielded. -/
theorem C3_counterexample :
    (∃ ab ∈ qtr_pairs_loop (qtr_reference_records c3_records)
        (qtr_query_records c3_records), ab.1.gbk_id = ab.2.gbk_id) ∧
    (0, 1) ∈ qtr_generate_pairs c3_records := by
  decide

/-- **C3 (amended).** The all-vs-all, ref-connected↔ref-singleton and
connected-component generators never emit a pair of records sharing a
parent GBK; the query↔ref generator suppresses only identical records,
so it can emit same-GBK sibling pairs (see the counterexample). -/
theorem C3_no_same_gbk_amended
    (source_records reference_records records : List BGCRecord)
    (store : List DistanceRow) (param : Nat) (done_ids : List Nat)
    (component : List (Nat × Nat)) :
    (∀ ab ∈ rpg_pair_candidates source_records, ab.1.gbk_id ≠ ab.2.gbk_id) ∧
    (∀ ab ∈ rtr_pair_candidates store param done_ids reference_records,
      ab.1.gbk_id ≠ ab.2.gbk_id) ∧
    (∀ ab ∈ cc_pair_candidates component records, ab.1.gbk_id ≠ ab.2.gbk_id) := by
  refine ⟨?_, ?_, ?_⟩
  · intro ab hab
    have h := (List.mem_filter.mp hab).2
    simpa using h
  · intro ab hab
    have h := (List.mem_filter.mp hab).2
    simpa using h
  · intro ab hab
    obtain ⟨e, _, hmap⟩ := List.mem_filterMap.mp hab
    cases hfa : records.find? (fun r => r.db_id == e.1) with
    | none => rw [hfa] at hmap; simp at hmap
    | some ra =>
      cases hfb : records.find? (fun r => r.db_id == e.2) with
      | none => rw [hfa, hfb] at hmap; simp at hmap
      | some rb =>
        rw [hfa, hfb] at hmap
        dsimp only at hmap
        by_cases hg : ra.gbk_id = rb.gbk_id
        · rw [if_pos hg] at hmap; simp at hmap
        · rw [if_neg hg] at hmap
          injection hmap with h
          subst h
          exact hg

/-- **C3 (witness).** The amended theorem instantiated at the S5 records:
the first emitted all-vs-all pair joins GBKs 0 and 1. -/
theorem C3_witness : (⟨0, 0, false⟩ : BGCRecord).gbk_id ≠ (⟨2, 1, false⟩ : BGCRecord).gbk_id :=
  (C3_no_same_gbk_amended c2_records [] [] [] 0 [] []).1
    (⟨0, 0, false⟩, ⟨2, 1, false⟩) (by decide)

/-- Membership in the `existing_distances` set. -/
theorem mem_existing_distances (store : List DistanceRow) (g : BaseGenerator)
    (q : Nat × Nat) :
    q ∈ existing_distances store g ↔
      ∃ row ∈ store, row.record_a_id ∈ g.record_ids ∧ row.record_b_id ∈ g.record_ids ∧
        row.edge_param_id = g.edge_param_id ∧ (row.record_a_id, row.record_b_id) = q := by
  unfold existing_distances missing_row_filter
  simp only [List.mem_map, List.mem_filter, Bool.and_eq_true, decide_eq_true_eq,
    beq_iff_eq]
  constructor
  · rintro ⟨row, ⟨hmem, ⟨ha, hb⟩, hparam⟩, hq⟩
    exact ⟨row, hmem, ha, hb, hparam, hq⟩
  · rintro ⟨row, hmem, ha, hb, hparam, hq⟩
    exact ⟨row, ⟨hmem, ⟨ha, hb⟩, hparam⟩, hq⟩

/-- **C5.** For every base generator whose pairs lie among its record ids
(true of all generator variants) and every edge-store state: the
missing-only wrapper yields exactly the base pairs not stored under the
bin's `edge_param_id` in either orientation, and its `num_pairs` equals
the base `num_pairs` minus the number of stored rows under this
`edge_param_id` among the bin's records. -/
theorem C5_missing_wrapper (store : List DistanceRow) (g : BaseGenerator)
    (hsub : ∀ p ∈ g.pairs, p.1 ∈ g.record_ids ∧ p.2 ∈ g.record_ids) :
    missing_generate_pairs store g =
      g.pairs.filter (fun p => decide (¬ storedEitherOrientation store g.edge_param_id p)) ∧
    missing_num_pairs store g = g.numPairs - stored_pair_count store g := by
  constructor
  · unfold missing_generate_pairs
    apply List.filter_congr
    intro p hp
    obtain ⟨hp1, hp2⟩ := hsub p hp
    rw [← Bool.decide_and, decide_eq_decide]
    unfold storedEitherOrientation
    rw [mem_existing_distances, mem_existing_distances]
    constructor
    · rintro ⟨hnot1, hnot2⟩ ⟨row, hmem, hparam, hor⟩
      rcases hor with heq | heq
      · have h1 : row.record_a_id = p.1 := congrArg Prod.fst heq
        have h2 : row.record_b_id = p.2 := congrArg Prod.snd heq
        exact hnot1 ⟨row, hmem, h1.symm ▸ hp1, h2.symm ▸ hp2, hparam, heq⟩
      · have h1 : row.record_a_id = p.2 := congrArg Prod.fst heq
        have h2 : row.record_b_id = p.1 := congrArg Prod.snd heq
        exact hnot2 ⟨row, hmem, h1.symm ▸ hp2, h2.symm ▸ hp1, hparam, heq⟩
    · intro hnot
      constructor
      · rintro ⟨row, hmem, _, _, hparam, heq⟩
        exact hnot ⟨row, hmem, hparam, Or.inl heq⟩
      · rintro ⟨row, hmem, _, _, hparam, heq⟩
        exact hnot ⟨row, hmem, hparam, Or.inr heq⟩
  · unfold missing_num_pairs stored_pair_count
    rw [List.countP_eq_length_filter]

/-- Store instantiating C5: pairs (1,2) and (3,1) stored under param 7,
plus a row under a different param. -/
def c5_store : List DistanceRow := [⟨1, 2, 1/2, 7⟩, ⟨3, 1, 1/2, 7⟩, ⟨1, 2, 1/2, 8⟩]

/-- Base generator instantiating C5: all-vs-all over ids 1, 2, 3. -/
def c5_generator : BaseGenerator := ⟨[1, 2, 3], 7, [(1, 2), (1, 3), (2, 3)], 3⟩

/-- **C5 (witness).** The theorem instantiated concretely: (1,2) is
stored directly, (1,3) is stored in the swapped orientation, so only
(2,3) survives, and num_pairs is 3 − 2 = 1. -/
theorem C5_witness :
    missing_generate_pairs c5_store c5_generator =
      c5_generator.pairs.filter
        (fun p => decide (¬ storedEitherOrientation c5_store c5_generator.edge_param_id p)) ∧
    missing_num_pairs c5_store c5_generator =
      c5_generator.numPairs - stored_pair_count c5_store c5_generator :=
  C5_missing_wrapper c5_store c5_generator (by decide)

/-! ## Records, domains and the worker's zero-Jaccard early exit
(legacy_workflow_alt.calculate_scores_pair) -/

/-- A CDS: its gene kind (notably `"biosynthetic"`) and the accessions of
its domain hits (HSPs).  HSP identity is modelled from the spec as the
accession string ("LCS: longest common (sub)sequence on domain accession
strings"; the HSP class is not under src/). -/
structure CDS where
  gene_kind : String
  hsps : List String
deriving DecidableEq, Repr

/-- A record as the worker sees it: database id and CDS list. -/
structure WorkerRecord where
  db_id : Nat
  cds : List CDS
deriving DecidableEq, Repr

/-- Modelled from the spec: `BGCRecord.get_cds_with_domains` — the CDS
carrying at least one domain ("CDS-space indices address only CDS that
carry at least one domain"); the method itself is not under src/. -/
def cds_with_domains (cds : List CDS) : List CDS :=
  cds.filter (fun c => !c.hsps.isEmpty)

/-- The flattened domain accession list of a CDS list. -/
def flattenDomains (cds : List CDS) : List String :=
  cds.flatMap (·.hsps)

/-- Modelled from the spec: `ComparableRegion` as initialised for a fresh
pair — all ranges set to the full CDS-with-domains lengths, reverse
false (the class is not under src/; only the fields the worker emits are
modelled). -/
structure ComparableRegion where
  lcs_a_start : Nat
  lcs_a_stop : Nat
  lcs_b_start : Nat
  lcs_b_stop : Nat
  a_start : Nat
  a_stop : Nat
  b_start : Nat
  b_stop : Nat
  reverse : Bool
deriving DecidableEq, Repr

/-- The default (full-range) comparable region of a fresh pair. -/
def init_comparable_region (record_a record_b : WorkerRecord) : ComparableRegion :=
  let la := (cds_with_domains record_a.cds).length
  let lb := (cds_with_domains record_b.cds).length
  ⟨0, la, 0, lb, 0, la, 0, lb, false⟩

/-- Modelled from the spec: `calc_jaccard_pair` on the full ranges — the
multiset Jaccard index `|A ∩ B| / |A ∪ B|` over domain accessions
(big_scape.distances is not under src/).  Multiset intersection is
`bagInter`; the multiset union size is `|A| + |B| − |A ∩ B|`. -/
def calc_jaccard_full (record_a record_b : WorkerRecord) : ℚ :=
  let dA := flattenDomains record_a.cds
  let dB := flattenDomains record_b.cds
  let inter := (dA.bagInter dB).length
  let union := dA.length + dB.length - inter
  (inter : ℚ) / (union : ℚ)

/-- The tuple emitted by `calculate_scores_pair` for one pair, plus a flag
recording whether LCS seeding ran (embedding the control flow of the
worker loop body). -/
structure ScoredEdge where
  record_a_id : Nat
  record_b_id : Nat
  distance : ℚ
  jaccard : ℚ
  adjacency : ℚ
  dss : ℚ
  edge_param_id : Nat
  lcs_a_start : Nat
  lcs_a_stop : Nat
  lcs_b_start : Nat
  lcs_b_stop : Nat
  a_start : Nat
  a_stop : Nat
  b_start : Nat
  b_stop : Nat
  reverse : Bool
  did_lcs : Bool
deriving DecidableEq, Repr

/-- The per-pair body of `calculate_scores_pair`: compute the full-range
Jaccard with no caching; if it is 0, append the early-exit tuple
`(1.0, 0, 0, 0)` with the default comparable region and continue to the
next pair — no LCS seeding, no extension.  The non-zero path (LCS,
extension, sub-scoring) is outside this claim and abstracted as the
continuation `rest` (do_lcs_pair, expand_pair and the sub-scorers are not
all under src/). -/
def calculate_scores_pair_step
    (rest : WorkerRecord → WorkerRecord → Nat → ScoredEdge)
    (record_a record_b : WorkerRecord) (edge_param_id : Nat) : ScoredEdge :=
  let cr := init_comparable_region record_a record_b
  let jaccard := calc_jaccard_full record_a record_b
  if jaccard = 0 then
    ⟨record_a.db_id, record_b.db_id, 1, 0, 0, 0, edge_param_id,
      cr.lcs_a_start, cr.lcs_a_stop, cr.lcs_b_start, cr.lcs_b_stop,
      cr.a_start, cr.a_stop, cr.b_start, cr.b_stop, cr.reverse, false⟩
  else rest record_a record_b edge_param_id

/-- **C6.** For every pair whose full-range Jaccard is 0 and every
continuation `rest`, the worker emits distance 1.0 with JC = AI = DSS = 0,
the comparable-region window at its default full-range values
(starts 0, stops the CDS-with-domains lengths of the two records) and
reverse false, with no LCS seeding (the result does not depend on the
LCS/extension/scoring continuation, and the did_lcs flag is false). -/
theorem C6_zero_jaccard_early_exit
    (rest : WorkerRecord → WorkerRecord → Nat → ScoredEdge)
    (record_a record_b : WorkerRecord) (edge_param_id : Nat)
    (h : calc_jaccard_full record_a record_b = 0) :
    calculate_scores_pair_step rest record_a record_b edge_param_id =
      ⟨record_a.db_id, record_b.db_id, 1, 0, 0, 0, edge_param_id,
        0, (cds_with_domains record_a.cds).length,
        0, (cds_with_domains record_b.cds).length,
        0, (cds_with_domains record_a.cds).length,
        0, (cds_with_domains record_b.cds).length,
        false, false⟩ := by
  unfold calculate_scores_pair_step
  rw [if_pos h]
  rfl

/-- The disjoint records of scenario S3: domains P1 P2 P3 vs P4 P5 P6. -/
def c6_record_a : WorkerRecord := ⟨11, [⟨"other", ["P1", "P2", "P3"]⟩]⟩

/-- Second record of scenario S3. -/
def c6_record_b : WorkerRecord := ⟨12, [⟨"other", ["P4", "P5", "P6"]⟩]⟩

/-- A continuation standing in for the non-early path, used only to
instantiate the witness. -/
def c6_rest (record_a record_b : WorkerRecord) (edge_param_id : Nat) : ScoredEdge :=
  ⟨record_a.db_id, record_b.db_id, 0, 0, 0, 0, edge_param_id,
    0, 0, 0, 0, 0, 0, 0, 0, false, true⟩

/-- **C6 (witness).** The theorem instantiated at the disjoint S3 pair:
its Jaccard is 0 and the early-exit tuple is emitted. -/
theorem C6_witness :
    calculate_scores_pair_step c6_rest c6_record_a c6_record_b 42 =
      ⟨c6_record_a.db_id, c6_record_b.db_id, 1, 0, 0, 0, 42,
        0, (cds_with_domains c6_record_a.cds).length,
        0, (cds_with_domains c6_record_b.cds).length,
        0, (cds_with_domains c6_record_a.cds).length,
        0, (cds_with_domains c6_record_b.cds).length,
        false, false⟩ :=
  C6_zero_jaccard_early_exit c6_rest c6_record_a c6_record_b 42 (by
    have h0 : ((flattenDomains c6_record_a.cds).bagInter
        (flattenDomains c6_record_b.cds)).length = 0 := by decide
    simp [calc_jaccard_full, h0])

/-! ## difflib's SequenceMatcher, as used by lcs.find_lcs -/

/-- Length of the longest common prefix of two lists. -/
def prefixLen : List String → List String → Nat
  | a :: as, b :: bs => if a = b then prefixLen as bs + 1 else 0
  | _, _ => 0

/-- difflib `SequenceMatcher.find_longest_match` with no junk (the source
passes `autojunk=False` and no junk predicate): the longest matching
block of `a[alo:ahi]` and `b[blo:bhi]`; among maximal blocks, the one
starting earliest in `a`, then earliest in `b` (the scan below visits
candidates in that order and replaces only on strict improvement).
Returns `(i, j, size)`, or `(alo, blo, 0)` when there is no match. -/
def findLongestMatch (a b : List String) (alo ahi blo bhi : Nat) : Nat × Nat × Nat :=
  ((List.range' alo (ahi - alo)).flatMap (fun i =>
    (List.range' blo (bhi - blo)).map (fun j => (i, j)))).foldl
    (fun best ij =>
      let k := prefixLen ((a.drop ij.1).take (ahi - ij.1)) ((b.drop ij.2).take (bhi - ij.2))
      if k > best.2.2 then (ij.1, ij.2, k) else best)
    (alo, blo, 0)

/-- The queue loop of difflib `get_matching_blocks`, collecting raw
blocks: find the longest match of the window, then recurse on the
regions before and after it.  Fuel only bounds the recursion depth;
`a.length + b.length + 1` always suffices because each recursive call
strictly shrinks the combined window size. -/
def matchingBlocksRec (a b : List String) :
    Nat → Nat → Nat → Nat → Nat → List (Nat × Nat × Nat)
  | 0, _, _, _, _ => []
  | fuel + 1, alo, ahi, blo, bhi =>
      let m := findLongestMatch a b alo ahi blo bhi
      if m.2.2 = 0 then []
      else m :: (matchingBlocksRec a b fuel alo m.1 blo m.2.1 ++
                 matchingBlocksRec a b fuel (m.1 + m.2.2) ahi (m.2.1 + m.2.2) bhi)

/-- Lexicographic order on blocks: the order of Python's
`matching_blocks.sort()` on triples. -/
def blockLE (x y : Nat × Nat × Nat) : Prop :=
  x.1 < y.1 ∨ (x.1 = y.1 ∧ (x.2.1 < y.2.1 ∨ (x.2.1 = y.2.1 ∧ x.2.2 ≤ y.2.2)))

instance : DecidableRel blockLE := fun x y => by unfold blockLE; infer_instance

/-- The merge loop of `get_matching_blocks`: adjacent blocks are merged;
the accumulator starts at `(0, 0, 0)` and is emitted when its length is
non-zero. -/
def mergeLoop : (Nat × Nat × Nat) → List (Nat × Nat × Nat) → List (Nat × Nat × Nat)
  | cur, [] => if cur.2.2 ≠ 0 then [cur] else []
  | cur, blk :: rest =>
      if cur.1 + cur.2.2 = blk.1 ∧ cur.2.1 + cur.2.2 = blk.2.1 then
        mergeLoop (cur.1, cur.2.1, cur.2.2 + blk.2.2) rest
      else
        (if cur.2.2 ≠ 0 then [cur] else []) ++ mergeLoop blk rest

/-- difflib `SequenceMatcher.get_matching_blocks`: the sorted and merged
raw blocks followed by the terminal zero-length block. -/
def getMatchingBlocks (a b : List String) : List (Nat × Nat × Nat) :=
  let raw := matchingBlocksRec a b (a.length + b.length + 1) 0 a.length 0 b.length
  mergeLoop (0, 0, 0) (raw.insertionSort blockLE) ++ [(a.length, b.length, 0)]

/-- `lcs.find_lcs`: the top-level longest match and all matching blocks. -/
def find_lcs (list_a list_b : List String) :
    (Nat × Nat × Nat) × List (Nat × Nat × Nat) :=
  (findLongestMatch list_a list_b 0 list_a.length 0 list_b.length,
   getMatchingBlocks list_a list_b)

/-! ## lcs.find_domain_lcs_region -/

/-- The `domain index → cds index` dictionary (`a_domain_cds_idx`), as a
list indexed by domain position. -/
def domainCdsIdx (cds : List CDS) : List Nat :=
  cds.enum.flatMap (fun ic => ic.2.hsps.map (fun _ => ic.1))

/-- The cds indices whose gene kind is `"biosynthetic"`
(`a_biosynthetic_domain_cds`; note the source appends CDS indices even
though its comment speaks of domain indices — embedded exactly as the
source stores them). -/
def biosyntheticCdsIdx (cds : List CDS) : List Nat :=
  (cds.enum.filter (fun ic => ic.2.gene_kind == "biosynthetic")).map (·.1)

/-- A matching block with direction: start in the A domain list, start in
the (possibly reversed) B domain list, length, and whether it came from
the reverse pass. -/
structure MBlock where
  ia : Nat
  ib : Nat
  len : Nat
  rev : Bool
deriving DecidableEq, Repr

/-- `matching_block_dirs` of `find_domain_lcs_region`: forward blocks
then reverse blocks, each tagged with its direction. -/
def lcsBlockDirs (a_cds b_cds : List CDS) : List MBlock :=
  let aD := flattenDomains a_cds
  let bD := flattenDomains b_cds
  ((find_lcs aD bD).2.map (fun t => MBlock.mk t.1 t.2.1 t.2.2 false)) ++
  ((find_lcs aD bD.reverse).2.map (fun t => MBlock.mk t.1 t.2.1 t.2.2 true))

/-- The four selection lists of `find_domain_lcs_region`.  The source
stores `match_idx` and later reads `matching_block_dirs[match_idx]`; here
the block itself is stored, together with its length (longest lists) or
its rounded distance to the middle (central lists), which is what the
stored index is used for. -/
structure SelState where
  longestBio : List (MBlock × Nat)
  longest : List (MBlock × Nat)
  centralBio : List (MBlock × Nat)
  central : List (MBlock × Nat)
deriving Repr

/-- The empty selection state. -/
def emptySelState : SelState := ⟨[], [], [], []⟩

/-- The update of a longest list: cleared when the new block is strictly
longer; the block is appended when the list is (now) empty or ties the
head's length. -/
def updLongest (l : List (MBlock × Nat)) (blk : MBlock) (len : Nat) :
    List (MBlock × Nat) :=
  match l with
  | [] => [(blk, len)]
  | (b0, v0) :: rest =>
      if v0 < len then [(blk, len)]
      else if v0 ≤ len then (b0, v0) :: rest ++ [(blk, len)]
      else (b0, v0) :: rest

/-- The update of a central list: cleared when the new distance is
strictly smaller; the block is appended when the list is (now) empty or
ties the head's distance. -/
def updCentral (l : List (MBlock × Nat)) (blk : MBlock) (dist : Nat) :
    List (MBlock × Nat) :=
  match l with
  | [] => [(blk, dist)]
  | (b0, v0) :: rest =>
      if dist < v0 then [(blk, dist)]
      else if dist ≤ v0 then (b0, v0) :: rest ++ [(blk, dist)]
      else (b0, v0) :: rest

/-- `has_biosynthetic` of the loop of `find_domain_lcs_region`: the
stored CDS indices are compared against the block's domain-index windows
exactly as the source does. -/
def lcsBlockIsBio (a_cds b_cds : List CDS) (blk : MBlock) : Bool :=
  ((biosyntheticCdsIdx a_cds).any
    (fun idx => decide (blk.ia ≤ idx) && decide (idx < blk.ia + blk.len))) ||
  ((biosyntheticCdsIdx b_cds).any
    (fun idx => decide (blk.ib ≤ idx) && decide (idx < blk.ib + blk.len)))

/-- `distance` of the loop of `find_domain_lcs_region`: the distance of
the block's nearest end to the middle of the shorter CDS list, with
Python `round` on half-integers (`natAbsDiff use_len (2*c)` is twice
`|use_len/2 − c|`). -/
def lcsBlockDist (a_cds b_cds : List CDS) (blk : MBlock) : Nat :=
  let use_a := a_cds.length ≤ b_cds.length
  let use_len := if use_a then a_cds.length else b_cds.length
  let use_idx := if use_a then domainCdsIdx a_cds else domainCdsIdx b_cds
  let use_start := if use_a then blk.ia else blk.ib
  let use_stop := if use_a then blk.ia + blk.len else blk.ib + blk.len
  let c1 := use_idx.getD use_start 0
  let c2 := use_idx.getD (use_stop - 1) 0
  pyRoundHalf (min (natAbsDiff use_len (2 * c1)) (natAbsDiff use_len (2 * c2)))

/-- The loop body of `find_domain_lcs_region` over one tagged block:
zero-length blocks are skipped; biosynthetic blocks go to the
biosynthetic longest/central lists, the rest to the plain ones. -/
def lcsSelStep (a_cds b_cds : List CDS) (st : SelState) (blk : MBlock) : SelState :=
  if blk.len = 0 then st
  else if lcsBlockIsBio a_cds b_cds blk then
    { st with longestBio := updLongest st.longestBio blk blk.len,
              centralBio := updCentral st.centralBio blk (lcsBlockDist a_cds b_cds blk) }
  else
    { st with longest := updLongest st.longest blk blk.len,
              central := updCentral st.central blk (lcsBlockDist a_cds b_cds blk) }

/-- The decision chain of `find_domain_lcs_region`: a unique longest
biosynthetic block, else the first most-central biosynthetic block, else
a unique longest block, else the first most-central block, else nothing
(the second RuntimeError). -/
def selectBlock (st : SelState) : Option MBlock :=
  if st.longestBio.length = 1 then st.longestBio.head?.map (·.1)
  else if 0 < st.centralBio.length then st.centralBio.head?.map (·.1)
  else if st.longest.length = 1 then st.longest.head?.map (·.1)
  else st.central.head?.map (·.1)

/-- The projection of the chosen block to CDS windows: domain endpoints
through the domain→cds maps with the end-of-list special case, the
reverse flip at domain then at CDS level, and the equal-start-stop
increment. -/
def projectBlock (a_cds b_cds : List CDS) (blk : MBlock) :
    Nat × Nat × Nat × Nat × Bool :=
  let aD := flattenDomains a_cds
  let bD := flattenDomains b_cds
  let aMap := domainCdsIdx a_cds
  let bMap := domainCdsIdx b_cds
  let a_start := blk.ia
  let a_stop := blk.ia + blk.len
  let a_cds_start := aMap.getD a_start 0
  let a_cds_stop := if a_stop = aD.length then a_cds.length else aMap.getD a_stop 0
  let b_start := if blk.rev then bD.length - (blk.ib + blk.len) else blk.ib
  let b_stop := if blk.rev then bD.length - blk.ib else blk.ib + blk.len
  let b_cds_start := bMap.getD b_start 0
  let b_cds_stop := if b_stop = bD.length then b_cds.length else bMap.getD b_stop 0
  let b_cds_start2 := if blk.rev then b_cds.length - b_cds_stop else b_cds_start
  let b_cds_stop2 := if blk.rev then b_cds.length - b_cds_start else b_cds_stop
  let a_cds_stop2 := if a_cds_start = a_cds_stop then a_cds_stop + 1 else a_cds_stop
  let b_cds_stop3 := if b_cds_start2 = b_cds_stop2 then b_cds_stop2 + 1 else b_cds_stop2
  (a_cds_start, a_cds_stop2, b_cds_start2, b_cds_stop3, blk.rev)

/-- The body of `lcs.find_domain_lcs_region` after the
`get_cds_with_domains` prologue; the two error cases are the two
`RuntimeError` raises of the source. -/
def find_domain_lcs_region_filtered (a_cds b_cds : List CDS) :
    Except String (Nat × Nat × Nat × Nat × Bool) :=
  if (find_lcs (flattenDomains a_cds) (flattenDomains b_cds)).1.2.2 = 0 ∧
     (find_lcs (flattenDomains a_cds) (flattenDomains b_cds).reverse).1.2.2 = 0 then
    .error "No match found in LCS."
  else
    match selectBlock ((lcsBlockDirs a_cds b_cds).foldl (lcsSelStep a_cds b_cds)
        emptySelState) with
    | some blk => .ok (projectBlock a_cds b_cds blk)
    | none => .error "No match found in LCS."

/-- `lcs.find_domain_lcs_region` on the two records' CDS lists. -/
def find_domain_lcs_region (a_cds_all b_cds_all : List CDS) :
    Except String (Nat × Nat × Nat × Nat × Bool) :=
  find_domain_lcs_region_filtered (cds_with_domains a_cds_all) (cds_with_domains b_cds_all)

/-- Whether a tagged matching block truly intersects a biosynthetic CDS:
some domain position inside its A window belongs to a biosynthetic CDS,
or some position inside its B window does (mapped back through the
reversal for reverse blocks).  This is the predicate of the claim and the
spec ("blocks whose A-window OR B-window intersects a biosynthetic
CDS"), against which `lcsBlockIsBio` (which compares CDS indices to
domain windows) is checked. -/
def blockIntersectsBiosynthetic (a_cds b_cds : List CDS) (blk : MBlock) : Prop :=
  (∃ d ∈ List.range' blk.ia blk.len,
    (domainCdsIdx a_cds).getD d 0 ∈ biosyntheticCdsIdx a_cds) ∨
  (∃ d ∈ List.range' blk.ib blk.len,
    (domainCdsIdx b_cds).getD
      (if blk.rev then (flattenDomains b_cds).length - 1 - d else d) 0
      ∈ biosyntheticCdsIdx b_cds)

instance (a_cds b_cds : List CDS) (blk : MBlock) :
    Decidable (blockIntersectsBiosynthetic a_cds b_cds blk) := by
  unfold blockIntersectsBiosynthetic
  infer_instance

instance exceptDecidableEq {ε α : Type} [DecidableEq ε] [DecidableEq α] :
    DecidableEq (Except ε α) := fun x y =>
  match x, y with
  | .error a, .error b =>
      if h : a = b then isTrue (h ▸ rfl)
      else isFalse (fun hc => h (Except.error.inj hc))
  | .ok a, .ok b =>
      if h : a = b then isTrue (h ▸ rfl)
      else isFalse (fun hc => h (Except.ok.inj hc))
  | .error _, .ok _ => isFalse (fun hc => Except.noConfusion hc)
  | .ok _, .error _ => isFalse (fun hc => Except.noConfusion hc)

/-- The A record of the C4 failing input: a non-biosynthetic CDS with
domains X Y Z followed by a biosynthetic CDS with domain B. -/
def c4_a_cds : List CDS := [⟨"other", ["X", "Y", "Z"]⟩, ⟨"biosynthetic", ["B"]⟩]

/-- The B record of the C4 failing input: non-biosynthetic CDS with
domains X Y Z, then Q, then B. -/
def c4_b_cds : List CDS := [⟨"other", ["X", "Y", "Z"]⟩, ⟨"other", ["Q"]⟩, ⟨"other", ["B"]⟩]

/-- **C4.** Evaluation at the failing input.  The matching blocks are
(0,0,3) (domains XYZ, entirely in non-biosynthetic CDS on both sides)
and (3,4,1) (domain B of A's biosynthetic CDS).  Only (3,4,1) truly
intersects a biosynthetic CDS and it is the unique such nonzero block,
yet the code returns the window of (0,0,3): its biosynthetic test
compares CDS index 1 against the domain-index window [0,3) and flags
the wrong block.  The claim requires the returned block to intersect a
biosynthetic CDS; the returned window (0,1,0,1,false) comes from the
non-biosynthetic block. -/
theorem C4_code_bug :
    find_domain_lcs_region c4_a_cds c4_b_cds = .ok (0, 1, 0, 1, false)
  ∧ (⟨3, 4, 1, false⟩ : MBlock) ∈
      lcsBlockDirs (cds_with_domains c4_a_cds) (cds_with_domains c4_b_cds)
  ∧ blockIntersectsBiosynthetic (cds_with_domains c4_a_cds)
      (cds_with_domains c4_b_cds) ⟨3, 4, 1, false⟩
  ∧ ¬ blockIntersectsBiosynthetic (cds_with_domains c4_a_cds)
      (cds_with_domains c4_b_cds) ⟨0, 0, 3, false⟩
  ∧ projectBlock (cds_with_domains c4_a_cds) (cds_with_domains c4_b_cds)
      ⟨0, 0, 3, false⟩ = (0, 1, 0, 1, false)
  ∧ find_domain_lcs_region c4_a_cds c4_b_cds ≠
      .ok (projectBlock (cds_with_domains c4_a_cds) (cds_with_domains c4_b_cds)
        ⟨3, 4, 1, false⟩)
  ∧ (∀ blk ∈ lcsBlockDirs (cds_with_domains c4_a_cds) (cds_with_domains c4_b_cds),
      blk.len ≠ 0 →
      blockIntersectsBiosynthetic (cds_with_domains c4_a_cds)
        (cds_with_domains c4_b_cds) blk →
      blk = ⟨3, 4, 1, false⟩) := by
  refine ⟨?_, ?_, ?_, ?_, ?_, ?_, ?_⟩ <;> decide

/-! ## Lemmas on the matching-block machinery, for C8 -/

/-- When the window's longest match is empty, the raw block collection is
empty. -/
theorem matchingBlocksRec_eq_nil (a b : List String) (fuel alo ahi blo bhi : Nat)
    (h : (findLongestMatch a b alo ahi blo bhi).2.2 = 0) :
    matchingBlocksRec a b (fuel + 1) alo ahi blo bhi = [] := by
  simp [matchingBlocksRec, h]

/-- The window's longest match is in the raw collection when it is
non-empty. -/
theorem matchingBlocksRec_mem (a b : List String) (fuel alo ahi blo bhi : Nat)
    (h : (findLongestMatch a b alo ahi blo bhi).2.2 ≠ 0) :
    findLongestMatch a b alo ahi blo bhi ∈
      matchingBlocksRec a b (fuel + 1) alo ahi blo bhi := by
  simp only [matchingBlocksRec, if_neg h]
  exact List.mem_cons_self _ _

/-- The merge loop keeps some non-zero-length block when one is
present among the accumulator and the input. -/
theorem mergeLoop_exists_nonzero (l : List (Nat × Nat × Nat)) :
    ∀ cur : Nat × Nat × Nat, (cur.2.2 ≠ 0 ∨ ∃ t ∈ l, t.2.2 ≠ 0) →
      ∃ t ∈ mergeLoop cur l, t.2.2 ≠ 0 := by
  induction l with
  | nil =>
      intro cur h
      rcases h with h | ⟨t, ht, _⟩
      · exact ⟨cur, by simp [mergeLoop, h], h⟩
      · simp at ht
  | cons blk rest ih =>
      intro cur h
      by_cases hadj : cur.1 + cur.2.2 = blk.1 ∧ cur.2.1 + cur.2.2 = blk.2.1
      · rw [show mergeLoop cur (blk :: rest) =
            mergeLoop (cur.1, cur.2.1, cur.2.2 + blk.2.2) rest by
          simp [mergeLoop, hadj]]
        apply ih
        rcases h with h | ⟨t, ht, htn⟩
        · left; simp; omega
        · rcases List.mem_cons.mp ht with rfl | htr
          · left; simp; omega
          · exact Or.inr ⟨t, htr, htn⟩
      · rw [show mergeLoop cur (blk :: rest) =
            (if cur.2.2 ≠ 0 then [cur] else []) ++ mergeLoop blk rest by
          simp [mergeLoop, hadj]]
        rcases h with h | ⟨t, ht, htn⟩
        · exact ⟨cur, List.mem_append_left _ (by simp [h]), h⟩
        · rcases List.mem_cons.mp ht with heq | htr
          · obtain ⟨u, hu, hun⟩ := ih blk (Or.inl (heq ▸ htn))
            exact ⟨u, List.mem_append_right _ hu, hun⟩
          · obtain ⟨u, hu, hun⟩ := ih blk (Or.inr ⟨t, htr, htn⟩)
            exact ⟨u, List.mem_append_right _ hu, hun⟩

/-- With no top-level match, `get_matching_blocks` is just the terminal
zero-length block. -/
theorem getMatchingBlocks_of_no_match (a b : List String)
    (h : (findLongestMatch a b 0 a.length 0 b.length).2.2 = 0) :
    getMatchingBlocks a b = [(a.length, b.length, 0)] := by
  unfold getMatchingBlocks
  rw [matchingBlocksRec_eq_nil a b _ 0 a.length 0 b.length h]
  simp [mergeLoop, List.insertionSort]

/-- With a non-empty top-level match, `get_matching_blocks` holds some
non-zero-length block. -/
theorem getMatchingBlocks_exists_nonzero (a b : List String)
    (h : (findLongestMatch a b 0 a.length 0 b.length).2.2 ≠ 0) :
    ∃ t ∈ getMatchingBlocks a b, t.2.2 ≠ 0 := by
  unfold getMatchingBlocks
  have hmem : findLongestMatch a b 0 a.length 0 b.length ∈
      (matchingBlocksRec a b (a.length + b.length + 1)
        0 a.length 0 b.length).insertionSort blockLE :=
    (List.perm_insertionSort blockLE _).mem_iff.mpr
      (matchingBlocksRec_mem a b _ 0 a.length 0 b.length h)
  obtain ⟨t, ht, htn⟩ := mergeLoop_exists_nonzero _ (0, 0, 0) (Or.inr ⟨_, hmem, h⟩)
  exact ⟨t, List.mem_append_left _ ht, htn⟩

/-- An entry of a selection list points at a non-zero-length block of the
tagged block list. -/
def GoodEntry (dirs : List MBlock) (e : MBlock × Nat) : Prop :=
  e.1 ∈ dirs ∧ e.1.len ≠ 0

/-- All four selection lists are made of good entries. -/
def GoodState (dirs : List MBlock) (st : SelState) : Prop :=
  (∀ e ∈ st.longestBio, GoodEntry dirs e) ∧ (∀ e ∈ st.longest, GoodEntry dirs e) ∧
  (∀ e ∈ st.centralBio, GoodEntry dirs e) ∧ (∀ e ∈ st.central, GoodEntry dirs e)

/-- Members of an updated longest list were present before or are the new
entry. -/
theorem mem_updLongest {l : List (MBlock × Nat)} {blk : MBlock} {v : Nat}
    {e : MBlock × Nat} (h : e ∈ updLongest l blk v) : e ∈ l ∨ e = (blk, v) := by
  match l with
  | [] =>
      simp only [updLongest] at h
      simp at h
      exact Or.inr h
  | (b0, v0) :: rest =>
      simp only [updLongest] at h
      by_cases h1 : v0 < v
      · rw [if_pos h1] at h
        simp at h
        exact Or.inr h
      · rw [if_neg h1] at h
        by_cases h2 : v0 ≤ v
        · rw [if_pos h2] at h
          rcases List.mem_cons.mp h with rfl | h3
          · exact Or.inl (List.mem_cons_self _ _)
          · rcases List.mem_append.mp h3 with h4 | h4
            · exact Or.inl (List.mem_cons_of_mem _ h4)
            · simp at h4
              exact Or.inr h4
        · rw [if_neg h2] at h
          exact Or.inl h

/-- Members of an updated central list were present before or are the new
entry. -/
theorem mem_updCentral {l : List (MBlock × Nat)} {blk : MBlock} {v : Nat}
    {e : MBlock × Nat} (h : e ∈ updCentral l blk v) : e ∈ l ∨ e = (blk, v) := by
  match l with
  | [] =>
      simp only [updCentral] at h
      simp at h
      exact Or.inr h
  | (b0, v0) :: rest =>
      simp only [updCentral] at h
      by_cases h1 : v < v0
      · rw [if_pos h1] at h
        simp at h
        exact Or.inr h
      · rw [if_neg h1] at h
        by_cases h2 : v ≤ v0
        · rw [if_pos h2] at h
          rcases List.mem_cons.mp h with rfl | h3
          · exact Or.inl (List.mem_cons_self _ _)
          · rcases List.mem_append.mp h3 with h4 | h4
            · exact Or.inl (List.mem_cons_of_mem _ h4)
            · simp at h4
              exact Or.inr h4
        · rw [if_neg h2] at h
          exact Or.inl h

/-- An updated longest list is never empty. -/
theorem updLongest_ne_nil (l : List (MBlock × Nat)) (blk : MBlock) (v : Nat) :
    updLongest l blk v ≠ [] := by
  match l with
  | [] => simp [updLongest]
  | (b0, v0) :: rest =>
      simp only [updLongest]
      by_cases h1 : v0 < v
      · simp [h1]
      · rw [if_neg h1]
        by_cases h2 : v0 ≤ v
        · simp [h2]
        · simp [h2]

/-- An updated central list is never empty. -/
theorem updCentral_ne_nil (l : List (MBlock × Nat)) (blk : MBlock) (v : Nat) :
    updCentral l blk v ≠ [] := by
  match l with
  | [] => simp [updCentral]
  | (b0, v0) :: rest =>
      simp only [updCentral]
      by_cases h1 : v < v0
      · simp [h1]
      · rw [if_neg h1]
        by_cases h2 : v ≤ v0
        · simp [h2]
        · simp [h2]

/-- One selection step preserves goodness. -/
theorem lcsSelStep_good (a_cds b_cds : List CDS) (dirs : List MBlock) (st : SelState)
    (blk : MBlock) (hblk : blk ∈ dirs) (hst : GoodState dirs st) :
    GoodState dirs (lcsSelStep a_cds b_cds st blk) := by
  unfold lcsSelStep
  by_cases h0 : blk.len = 0
  · rw [if_pos h0]; exact hst
  · rw [if_neg h0]
    obtain ⟨hLB, hL, hCB, hC⟩ := hst
    by_cases hbio : lcsBlockIsBio a_cds b_cds blk
    · rw [if_pos hbio]
      refine ⟨?_, hL, ?_, hC⟩
      · intro e he
        rcases mem_updLongest he with h | rfl
        · exact hLB e h
        · exact ⟨hblk, h0⟩
      · intro e he
        rcases mem_updCentral he with h | rfl
        · exact hCB e h
        · exact ⟨hblk, h0⟩
    · rw [if_neg hbio]
      refine ⟨hLB, ?_, hCB, ?_⟩
      · intro e he
        rcases mem_updLongest he with h | rfl
        · exact hL e h
        · exact ⟨hblk, h0⟩
      · intro e he
        rcases mem_updCentral he with h | rfl
        · exact hC e h
        · exact ⟨hblk, h0⟩

/-- The selection fold preserves goodness. -/
theorem foldl_lcsSelStep_good (a_cds b_cds : List CDS) (dirs : List MBlock) :
    ∀ (l : List MBlock) (st : SelState), (∀ b ∈ l, b ∈ dirs) → GoodState dirs st →
      GoodState dirs (l.foldl (lcsSelStep a_cds b_cds) st)
  | [], _, _, hst => hst
  | b :: rest, st, hl, hst => by
      rw [List.foldl_cons]
      exact foldl_lcsSelStep_good a_cds b_cds dirs rest _
        (fun x hx => hl x (List.mem_cons_of_mem _ hx))
        (lcsSelStep_good a_cds b_cds dirs st b (hl b (List.mem_cons_self _ _)) hst)

/-- After a step on a non-zero-length block, a central list is
non-empty. -/
theorem lcsSelStep_central_creates (a_cds b_cds : List CDS) (st : SelState)
    (blk : MBlock) (h0 : blk.len ≠ 0) :
    (lcsSelStep a_cds b_cds st blk).centralBio ≠ [] ∨
    (lcsSelStep a_cds b_cds st blk).central ≠ [] := by
  unfold lcsSelStep
  rw [if_neg h0]
  by_cases hbio : lcsBlockIsBio a_cds b_cds blk
  · rw [if_pos hbio]
    exact Or.inl (updCentral_ne_nil _ _ _)
  · rw [if_neg hbio]
    exact Or.inr (updCentral_ne_nil _ _ _)

/-- A step keeps a central list non-empty. -/
theorem lcsSelStep_central_preserves (a_cds b_cds : List CDS) (st : SelState)
    (blk : MBlock) (h : st.centralBio ≠ [] ∨ st.central ≠ []) :
    (lcsSelStep a_cds b_cds st blk).centralBio ≠ [] ∨
    (lcsSelStep a_cds b_cds st blk).central ≠ [] := by
  unfold lcsSelStep
  by_cases h0 : blk.len = 0
  · rw [if_pos h0]; exact h
  · rw [if_neg h0]
    by_cases hbio : lcsBlockIsBio a_cds b_cds blk
    · rw [if_pos hbio]
      exact Or.inl (updCentral_ne_nil _ _ _)
    · rw [if_neg hbio]
      exact Or.inr (updCentral_ne_nil _ _ _)

/-- After folding over a list holding a non-zero-length block (or from a
state already non-empty), a central list is non-empty. -/
theorem foldl_central_nonempty (a_cds b_cds : List CDS) :
    ∀ (l : List MBlock) (st : SelState),
      ((∃ b ∈ l, b.len ≠ 0) ∨ st.centralBio ≠ [] ∨ st.central ≠ []) →
      ((l.foldl (lcsSelStep a_cds b_cds) st).centralBio ≠ [] ∨
       (l.foldl (lcsSelStep a_cds b_cds) st).central ≠ [])
  | [], st, h => by
      rcases h with ⟨b, hb, _⟩ | h
      · simp at hb
      · exact h
  | b :: rest, st, h => by
      rw [List.foldl_cons]
      apply foldl_central_nonempty a_cds b_cds rest
      rcases h with ⟨c, hc, hcn⟩ | h
      · rcases List.mem_cons.mp hc with rfl | hcr
        · exact Or.inr (lcsSelStep_central_creates a_cds b_cds st c hcn)
        · exact Or.inl ⟨c, hcr, hcn⟩
      · exact Or.inr (lcsSelStep_central_preserves a_cds b_cds st b h)

/-- When a central list is non-empty, the selection chain picks some
good block. -/
theorem selectBlock_some (dirs : List MBlock) (st : SelState)
    (hne : st.centralBio ≠ [] ∨ st.central ≠ []) (hgood : GoodState dirs st) :
    ∃ blk, selectBlock st = some blk ∧ blk ∈ dirs ∧ blk.len ≠ 0 := by
  obtain ⟨hLB, hL, hCB, hC⟩ := hgood
  unfold selectBlock
  by_cases h1 : st.longestBio.length = 1
  · rw [if_pos h1]
    match hlb : st.longestBio with
    | [] => rw [hlb] at h1; simp at h1
    | e :: rest =>
        have he : e ∈ st.longestBio := by rw [hlb]; exact List.mem_cons_self _ _
        exact ⟨e.1, by simp, (hLB e he).1, (hLB e he).2⟩
  · rw [if_neg h1]
    by_cases h2 : 0 < st.centralBio.length
    · rw [if_pos h2]
      match hcb : st.centralBio with
      | [] => rw [hcb] at h2; simp at h2
      | e :: rest =>
          have he : e ∈ st.centralBio := by rw [hcb]; exact List.mem_cons_self _ _
          exact ⟨e.1, by simp, (hCB e he).1, (hCB e he).2⟩
    · rw [if_neg h2]
      have hcbnil : st.centralBio = [] := by
        cases hcb : st.centralBio with
        | nil => rfl
        | cons e rest => rw [hcb] at h2; simp at h2
      by_cases h3 : st.longest.length = 1
      · rw [if_pos h3]
        match hlg : st.longest with
        | [] => rw [hlg] at h3; simp at h3
        | e :: rest =>
            have he : e ∈ st.longest := by rw [hlg]; exact List.mem_cons_self _ _
            exact ⟨e.1, by simp, (hL e he).1, (hL e he).2⟩
      · rw [if_neg h3]
        have hcne : st.central ≠ [] := by
          rcases hne with h | h
          · exact absurd hcbnil h
          · exact h
        match hcn : st.central with
        | [] => exact absurd hcn hcne
        | e :: rest =>
            have he : e ∈ st.central := by rw [hcn]; exact List.mem_cons_self _ _
            exact ⟨e.1, by simp, (hC e he).1, (hC e he).2⟩

/-- The error/return discipline of the LCS body: an error exactly when
every tagged block has length zero; otherwise the returned window comes
from some non-zero-length block. -/
theorem lcs_filtered_spec (A B : List CDS) :
    (find_domain_lcs_region_filtered A B = .error "No match found in LCS." ↔
      ∀ blk ∈ lcsBlockDirs A B, blk.len = 0)
  ∧ ((∃ blk ∈ lcsBlockDirs A B, blk.len ≠ 0) →
      ∃ blk ∈ lcsBlockDirs A B, blk.len ≠ 0 ∧
        find_domain_lcs_region_filtered A B = .ok (projectBlock A B blk)) := by
  have hex : ¬((find_lcs (flattenDomains A) (flattenDomains B)).1.2.2 = 0 ∧
        (find_lcs (flattenDomains A) (flattenDomains B).reverse).1.2.2 = 0) →
      ∃ blk ∈ lcsBlockDirs A B, blk.len ≠ 0 := by
    intro hc
    by_cases hf : (findLongestMatch (flattenDomains A) (flattenDomains B) 0
        (flattenDomains A).length 0 (flattenDomains B).length).2.2 = 0
    · have hr : (findLongestMatch (flattenDomains A) (flattenDomains B).reverse 0
          (flattenDomains A).length 0 (flattenDomains B).reverse.length).2.2 ≠ 0 := by
        intro h
        exact hc ⟨hf, h⟩
      obtain ⟨t, ht, htn⟩ := getMatchingBlocks_exists_nonzero _ _ hr
      exact ⟨⟨t.1, t.2.1, t.2.2, true⟩,
        List.mem_append_right _ (List.mem_map_of_mem _ ht), htn⟩
    · obtain ⟨t, ht, htn⟩ := getMatchingBlocks_exists_nonzero _ _ hf
      exact ⟨⟨t.1, t.2.1, t.2.2, false⟩,
        List.mem_append_left _ (List.mem_map_of_mem _ ht), htn⟩
  have hallzero : ((find_lcs (flattenDomains A) (flattenDomains B)).1.2.2 = 0 ∧
      (find_lcs (flattenDomains A) (flattenDomains B).reverse).1.2.2 = 0) →
      ∀ blk ∈ lcsBlockDirs A B, blk.len = 0 := by
    rintro ⟨hf, hr⟩ blk hblk
    unfold lcsBlockDirs at hblk
    dsimp only at hblk
    rw [show (find_lcs (flattenDomains A) (flattenDomains B)).2 =
          getMatchingBlocks (flattenDomains A) (flattenDomains B) from rfl,
        getMatchingBlocks_of_no_match _ _ hf,
        show (find_lcs (flattenDomains A) (flattenDomains B).reverse).2 =
          getMatchingBlocks (flattenDomains A) (flattenDomains B).reverse from rfl,
        getMatchingBlocks_of_no_match _ _ hr] at hblk
    simp at hblk
    rcases hblk with rfl | rfl <;> rfl
  have hempty : GoodState (lcsBlockDirs A B) emptySelState := by
    refine ⟨?_, ?_, ?_, ?_⟩ <;> intro e he <;> simp [emptySelState] at he
  have hgood := foldl_lcsSelStep_good A B (lcsBlockDirs A B) (lcsBlockDirs A B)
    emptySelState (fun x hx => hx) hempty
  constructor
  · constructor
    · intro herr
      by_cases hc : ((find_lcs (flattenDomains A) (flattenDomains B)).1.2.2 = 0 ∧
          (find_lcs (flattenDomains A) (flattenDomains B).reverse).1.2.2 = 0)
      · exact hallzero hc
      · exfalso
        obtain ⟨bnz, hbnz, hlen⟩ := hex hc
        have hfold := foldl_central_nonempty A B (lcsBlockDirs A B) emptySelState
          (Or.inl ⟨bnz, hbnz, hlen⟩)
        obtain ⟨blk, hsel, _, _⟩ := selectBlock_some _ _ hfold hgood
        unfold find_domain_lcs_region_filtered at herr
        rw [if_neg hc, hsel] at herr
        simp at herr
    · intro hall
      have hc : (find_lcs (flattenDomains A) (flattenDomains B)).1.2.2 = 0 ∧
          (find_lcs (flattenDomains A) (flattenDomains B).reverse).1.2.2 = 0 := by
        by_contra hc
        obtain ⟨bnz, hbnz, hlen⟩ := hex hc
        exact hlen (hall bnz hbnz)
      unfold find_domain_lcs_region_filtered
      rw [if_pos hc]
  · rintro ⟨bnz, hbnz, hlen⟩
    have hc : ¬((find_lcs (flattenDomains A) (flattenDomains B)).1.2.2 = 0 ∧
        (find_lcs (flattenDomains A) (flattenDomains B).reverse).1.2.2 = 0) := by
      intro hc
      exact hlen (hallzero hc bnz hbnz)
    have hfold := foldl_central_nonempty A B (lcsBlockDirs A B) emptySelState
      (Or.inl ⟨bnz, hbnz, hlen⟩)
    obtain ⟨blk, hsel, hmem, hlen2⟩ := selectBlock_some _ _ hfold hgood
    refine ⟨blk, hmem, hlen2, ?_⟩
    unfold find_domain_lcs_region_filtered
    rw [if_neg hc, hsel]

/-- **C8.** `find_domain_lcs_region` raises its RuntimeError exactly when
every matching block of both the forward and the reverse direction has
length zero; whenever some non-zero-length block exists in either
direction, zero-length blocks are discarded (the selection lists only
ever hold non-zero-length blocks) and the returned window is the
projection of some non-zero-length block. -/
theorem C8_find_domain_lcs_region (a_cds_all b_cds_all : List CDS) :
    (find_domain_lcs_region a_cds_all b_cds_all = .error "No match found in LCS." ↔
      ∀ blk ∈ lcsBlockDirs (cds_with_domains a_cds_all) (cds_with_domains b_cds_all),
        blk.len = 0)
  ∧ ((∃ blk ∈ lcsBlockDirs (cds_with_domains a_cds_all) (cds_with_domains b_cds_all),
        blk.len ≠ 0) →
      ∃ blk ∈ lcsBlockDirs (cds_with_domains a_cds_all) (cds_with_domains b_cds_all),
        blk.len ≠ 0 ∧
        find_domain_lcs_region a_cds_all b_cds_all =
          .ok (projectBlock (cds_with_domains a_cds_all)
            (cds_with_domains b_cds_all) blk)) :=
  lcs_filtered_spec (cds_with_domains a_cds_all) (cds_with_domains b_cds_all)

/-- **C8 (witness).** The theorem instantiated at the C4 records, which
have a non-zero-length matching block: the function returns a window
projected from a non-zero-length block. -/
theorem C8_witness :
    ∃ blk ∈ lcsBlockDirs (cds_with_domains c4_a_cds) (cds_with_domains c4_b_cds),
      blk.len ≠ 0 ∧
      find_domain_lcs_region c4_a_cds c4_b_cds =
        .ok (projectBlock (cds_with_domains c4_a_cds) (cds_with_domains c4_b_cds) blk) :=
  (C8_find_domain_lcs_region c4_a_cds c4_b_cds).2 (by decide)

end BigScape
